import Mathlib

/-!
Verification of the SDM delivery-goal orchestration core: a shallow
embedding of the goal state machine, downstream-request engine,
fulfillment dispatcher, goal-set cancellation, completion reactor and
goal signing, translated from the TypeScript sources, together with
theorems settling the specification claims.
-/

namespace SdmCore

/-- State of an SDM goal, from the SdmGoalState enumeration. -/
inductive SdmGoalState where
  | planned
  | requested
  | waiting_for_pre_approval
  | pre_approved
  | waiting_for_approval
  | approved
  | in_process
  | success
  | failure
  | skipped
  | stopped
  | canceled
  deriving DecidableEq

/-- Fulfillment method of an SDM goal, from SdmGoalFulfillmentMethod. -/
inductive SdmGoalFulfillmentMethod where
  | Sdm
  | SideEffect
  | Other
  deriving DecidableEq

/-- Fulfillment record on a goal event: name, method and registration. -/
structure SdmGoalFulfillment where
  name : String
  method : SdmGoalFulfillmentMethod
  registration : String
  deriving DecidableEq

/-- Key of a goal used in precondition lists: environment and uniqueName. -/
structure SdmGoalKey where
  environment : String
  uniqueName : String
  deriving DecidableEq

/-- Repository coordinates of a goal event. -/
structure SdmRepo where
  owner : String
  name : String
  providerId : String
  deriving DecidableEq

/-- Provenance entry on a goal event. -/
structure SdmProvenance where
  registration : Option String
  version : Option String
  name : Option String
  userId : Option String
  channelId : Option String
  ts : Nat
  deriving DecidableEq

/-- External URL entry on a goal event. -/
structure SdmExternalUrl where
  label : Option String
  url : String
  deriving DecidableEq

/-- An ideal digital signature: the signed message together with the key
identifier of the signing key. Modelled from the spec: RSA-SHA512 signing
and verification are done by the external crypto library (not part of the
sources); verification succeeds exactly when the key pair matches and the
message is unchanged. -/
structure IdealSignature where
  message : String
  keyId : Nat
  deriving DecidableEq

/-- A goal event (SdmGoal instance) with the attributes the core reads. -/
structure SdmGoalEvent where
  uniqueName : String
  environment : String
  name : String
  goalSetId : String
  state : SdmGoalState
  sha : String
  branch : String
  ts : Nat
  version : Option Nat
  repo : SdmRepo
  fulfillment : SdmGoalFulfillment
  preConditions : List SdmGoalKey
  data : Option String
  url : Option String
  externalUrls : List SdmExternalUrl
  provenance : List SdmProvenance
  retryFeasible : Bool
  approvalRequired : Bool
  approval : Option SdmProvenance
  preApprovalRequired : Bool
  preApproval : Option SdmProvenance
  description : String
  signature : Option IdealSignature
  deriving DecidableEq

/-- A goal-state update written through updateGoal: new state and description. -/
structure GoalUpdate where
  state : SdmGoalState
  description : String
  deriving DecidableEq

/-! ## Downstream-request engine (RequestDownstreamGoalsOnGoalSuccess) -/

/-- Translation of shouldBePlannedOrSkipped: a goal is re-evaluated for
candidacy from planned, skipped, or failure with retryFeasible. -/
def shouldBePlannedOrSkipped (dependentGoal : SdmGoalEvent) : Bool :=
  if dependentGoal.state = SdmGoalState.planned then true
  else if dependentGoal.state = SdmGoalState.skipped then true
  else if dependentGoal.state = SdmGoalState.failure ∧ dependentGoal.retryFeasible then true
  else false

/-- Translation of expectToBeFulfilledAfterRequest: Sdm and Other goals are
expected to be fulfilled; SideEffect goals only when the fulfillment name is
not this SDM's name. -/
def expectToBeFulfilledAfterRequest (dependentGoal : SdmGoalEvent) (name : String) : Bool :=
  match dependentGoal.fulfillment.method with
  | SdmGoalFulfillmentMethod.Sdm => true
  | SdmGoalFulfillmentMethod.SideEffect => dependentGoal.fulfillment.name ≠ name
  | SdmGoalFulfillmentMethod.Other => true

/-- Modelled from the spec: mapKeyToGoal is imported from the sdm library and
is not part of these sources; it looks a goal key up among a list of keys by
environment and uniqueName. -/
def mapKeyToGoal (goals : List SdmGoalKey) (keyToFind : SdmGoalKey) : Option SdmGoalKey :=
  goals.find? (fun g => g.environment = keyToFind.environment ∧ g.uniqueName = keyToFind.uniqueName)

/-- Key of a goal event. -/
def goalKey (g : SdmGoalEvent) : SdmGoalKey :=
  { environment := g.environment, uniqueName := g.uniqueName }

/-- Translation of isDirectlyDependentOn: a goal with no preconditions is not
dependent; otherwise the successful goal must appear among the preconditions. -/
def isDirectlyDependentOn (successfulGoal : SdmGoalKey) (goal : SdmGoalEvent) : Bool :=
  if goal.preConditions.isEmpty then false
  else (mapKeyToGoal goal.preConditions successfulGoal).isSome

/-- Modelled from the spec: preconditionsAreMet is imported from the sdm
library and is not part of these sources; every precondition of the goal must
be matched, by environment and uniqueName, by a goal in state success among
the goals of the set. -/
def preconditionsAreMet (goal : SdmGoalEvent) (goalsForCommit : List SdmGoalEvent) : Bool :=
  goal.preConditions.all (fun p =>
    goalsForCommit.any (fun u =>
      u.environment = p.environment ∧ u.uniqueName = p.uniqueName ∧
        u.state = SdmGoalState.success))

/-- The filter chain of RequestDownstreamGoalsOnGoalSuccess.handle selecting
the goals to request after sdmGoal succeeded. -/
def goalsToRequest (goals : List SdmGoalEvent) (sdmGoal : SdmGoalEvent) (name : String) :
    List SdmGoalEvent :=
  (((goals.filter (fun g => isDirectlyDependentOn (goalKey sdmGoal) g)).filter
    (fun g => expectToBeFulfilledAfterRequest g name)).filter
    (fun g => shouldBePlannedOrSkipped g)).filter
    (fun g => preconditionsAreMet g goals)

/-- An advancement performed for a selected downstream goal: the goal value
passed to updateGoal (after the callback chain, for requested goals), the new
state, and the data written (only on the requested branch). -/
structure GoalAdvancement where
  target : SdmGoalEvent
  state : SdmGoalState
  data : Option (Option String)
  deriving DecidableEq

/-- Run the fulfillment-callback chain over a goal, in order. -/
def runCallbacks (cbs : List (SdmGoalEvent → SdmGoalEvent)) (g : SdmGoalEvent) : SdmGoalEvent :=
  cbs.foldl (fun acc cb => cb acc) g

/-- The advancement applied to one selected goal: waiting_for_pre_approval if
preApprovalRequired, otherwise requested after the callback chain, writing the
possibly enriched data. -/
def advanceOne (cbs : List (SdmGoalEvent → SdmGoalEvent)) (g : SdmGoalEvent) : GoalAdvancement :=
  if g.preApprovalRequired then
    { target := g, state := SdmGoalState.waiting_for_pre_approval, data := none }
  else
    let g2 := runCallbacks cbs g
    { target := g2, state := SdmGoalState.requested, data := some g2.data }

/-- All advancements performed by the handler for one successful goal. -/
def advanceDownstreamGoals (cbs : List (SdmGoalEvent → SdmGoalEvent))
    (goals : List SdmGoalEvent) (sdmGoal : SdmGoalEvent) (name : String) :
    List GoalAdvancement :=
  (goalsToRequest goals sdmGoal name).map (advanceOne cbs)

/-! ## Goal-set cancellation (cancelGoals.ts) -/

/-- The states cancelGoalSet skips, in source order. -/
def cancelSkipStates : List SdmGoalState :=
  [SdmGoalState.success, SdmGoalState.canceled, SdmGoalState.stopped,
   SdmGoalState.skipped, SdmGoalState.failure]

/-- The goal-state writes performed by cancelGoalSet over the goals of a set:
every goal whose state is not in the skip list is updated to canceled. -/
def cancelGoalSetUpdates (goals : List SdmGoalEvent) : List (SdmGoalEvent × GoalUpdate) :=
  (goals.filter (fun g => ¬ (g.state ∈ cancelSkipStates))).map
    (fun g => (g, { state := SdmGoalState.canceled, description := "Canceled " ++ g.name }))

/-! ## Fulfillment dispatcher admission (FulfillGoalOnRequested, gate) -/

/-- Decision taken by the fulfillment gate of FulfillGoalOnRequested.handle
for an admitted requested goal: skip returns Success to the bus without any
goal write; failNoFulfillment writes a failure update and returns Success;
execute proceeds to scheduling or in-process execution. -/
inductive FulfillDecision where
  | skip
  | failNoFulfillment (update : GoalUpdate)
  | execute
  deriving DecidableEq

/-- Translation of the fulfillment-method gate of FulfillGoalOnRequested:
a SideEffect goal registered for another registration is ignored; an Other
goal is failed with a No fulfillment description; anything else executes. -/
def fulfillmentGate (sdmGoal : SdmGoalEvent) (registrationName : String) : FulfillDecision :=
  if sdmGoal.fulfillment.method = SdmGoalFulfillmentMethod.SideEffect ∧
      sdmGoal.fulfillment.registration ≠ registrationName then
    FulfillDecision.skip
  else if sdmGoal.fulfillment.method = SdmGoalFulfillmentMethod.Other then
    FulfillDecision.failNoFulfillment
      { state := SdmGoalState.failure,
        description := "No fulfillment for " ++ sdmGoal.uniqueName }
  else
    FulfillDecision.execute

/-- Goal-state writes performed at the fulfillment gate. -/
def fulfillmentGateUpdates (sdmGoal : SdmGoalEvent) (registrationName : String) :
    List GoalUpdate :=
  match fulfillmentGate sdmGoal registrationName with
  | FulfillDecision.skip => []
  | FulfillDecision.failNoFulfillment u => [u]
  | FulfillDecision.execute => []

/-- Whether the gate returns Success to the bus immediately (without
executing the goal). -/
def fulfillmentGateReturnsSuccess (sdmGoal : SdmGoalEvent) (registrationName : String) : Bool :=
  match fulfillmentGate sdmGoal registrationName with
  | FulfillDecision.skip => true
  | FulfillDecision.failNoFulfillment _ => true
  | FulfillDecision.execute => false

/-! ## Fulfillment dispatcher execution (FulfillGoalOnRequested, tail) -/

/-- Result returned by an executor or scheduler, from ExecuteGoalResult. -/
structure ExecuteGoalResult where
  code : Option Int
  message : Option String
  state : Option SdmGoalState
  phase : Option String
  description : Option String
  deriving DecidableEq

/-- Behavior of the in-process goal executor for one run: it either returns
a (possibly undefined) result or throws an error with a message. -/
inductive ExecutorBehavior where
  | returns (result : Option ExecuteGoalResult)
  | throws (message : String)
  deriving DecidableEq

/-- The environment of one dispatched goal execution: whether a configured
goal scheduler supports the invocation (and, if so, what its schedule call
returns), and how the in-process executor behaves otherwise. -/
structure ExecutionEnv where
  scheduler : Option (Option ExecuteGoalResult)
  executor : ExecutorBehavior
  deriving DecidableEq

/-- Observable effects of the dispatcher tail, in order. runExecutor stands
for the executeGoal call; modelled from the spec, executeGoal (imported from
the sdm library, not part of these sources) marks the goal in_process and
publishes the goal's terminal-state update itself before returning.
publishGoal is an updateGoal call made by the dispatcher; closeLog is the
progress-log close performed at the end of reportEndAndClose. -/
inductive Effect where
  | reportStart
  | runExecutor
  | publishGoal (state : SdmGoalState) (description : Option String)
  | reportEnd (result : Option ExecuteGoalResult)
  | closeLog
  deriving DecidableEq

/-- Translation of reportEndAndClose: write the result summary to the
progress log, then close the log. -/
def reportEndAndClose (result : Option ExecuteGoalResult) : List Effect :=
  [Effect.reportEnd result, Effect.closeLog]

/-- Outcome of the event handler as seen by the bus: a returned result with
code zero, or a thrown error. -/
inductive HandlerOutcome where
  | success
  | thrown (message : String)
  deriving DecidableEq

/-- One run of the dispatcher tail: its effect trace and its bus outcome. -/
structure HandlerRun where
  trace : List Effect
  outcome : HandlerOutcome
  deriving DecidableEq

/-- The terminatingStates list of FulfillGoalOnRequested, in source order. -/
def terminatingStates : List SdmGoalState :=
  [SdmGoalState.canceled, SdmGoalState.failure, SdmGoalState.skipped,
   SdmGoalState.stopped, SdmGoalState.success, SdmGoalState.waiting_for_approval]

/-- Condition under which a scheduler result counts as failed: the result is
present and carries a code that is defined and non-zero. -/
def schedulerResultFailed (result : Option ExecuteGoalResult) : Bool :=
  match result with
  | some r => r.code ≠ none ∧ r.code ≠ some 0
  | none => false

/-- State written on the non-failing scheduler branch: the result state when
present, otherwise in_process. -/
def scheduledState (result : Option ExecuteGoalResult) : SdmGoalState :=
  match result with
  | some r => r.state.getD SdmGoalState.in_process
  | none => SdmGoalState.in_process

/-- Condition under which the executor branch runs reportEndAndClose: the
result is absent, has no state, or has a terminating state. -/
def executorResultCloses (result : Option ExecuteGoalResult) : Bool :=
  match result with
  | none => true
  | some r =>
    match r.state with
    | none => true
    | some s => s ∈ terminatingStates

/-- Translation of the tail of FulfillGoalOnRequested.handle: scheduler
branch (failure or scheduled), in-process executor branch, and the catch
block that captures a thrown error, reports and closes the log, and
rethrows. -/
def fulfillExecution (env : ExecutionEnv) : HandlerRun :=
  match env.scheduler with
  | some result =>
    if schedulerResultFailed result then
      { trace := Effect.publishGoal SdmGoalState.failure (some "Failed to schedule goal") ::
          reportEndAndClose result,
        outcome := HandlerOutcome.success }
    else
      { trace := [Effect.publishGoal (scheduledState result) (result.bind (fun r => r.description))],
        outcome := HandlerOutcome.success }
  | none =>
    match env.executor with
    | ExecutorBehavior.returns result =>
      { trace := [Effect.reportStart, Effect.runExecutor] ++
          (if executorResultCloses result then reportEndAndClose result else []),
        outcome := HandlerOutcome.success }
    | ExecutorBehavior.throws msg =>
      let m := "Goal executor threw exception: " ++ msg
      let egr : ExecuteGoalResult :=
        { code := some 1, message := some m, state := some SdmGoalState.failure,
          phase := none, description := none }
      { trace := [Effect.reportStart, Effect.runExecutor] ++ reportEndAndClose (some egr),
        outcome := HandlerOutcome.thrown m }

/-- Whether an effect publishes a terminal goal state. -/
def isTerminalPublish (e : Effect) : Bool :=
  match e with
  | Effect.publishGoal s _ =>
    s ∈ [SdmGoalState.success, SdmGoalState.failure, SdmGoalState.canceled,
         SdmGoalState.skipped, SdmGoalState.stopped]
  | _ => false

/-- Whether, in a trace, the log close comes before every terminal-state
publication made by the dispatcher (vacuously true when either is absent). -/
def closesBeforeTerminalPublish (t : List Effect) : Bool :=
  match t.findIdx? (fun e => e = Effect.closeLog), t.findIdx? isTerminalPublish with
  | some i, some j => decide (i < j)
  | _, _ => true

/-! ## Goal-completion reactor (setGitHubStatusOnGoalCompletion) -/

/-- A commit status published to the source-control provider. -/
structure GitHubStatus where
  context : String
  description : String
  targetUrl : Option String
  state : String
  deriving DecidableEq

/-- Translation of allSuccessful: no goal in the list has a state other than
success. -/
def allSuccessful (goals : List SdmGoalEvent) : Bool :=
  !(goals.any (fun g => g.state ≠ SdmGoalState.success))

/-- Status description prefix derived from the SDM name. -/
def statusDescriptionPrefix (sdmName : String) : String :=
  if sdmName.length > 0 then sdmName ++ " goals" else "Atomist SDM goals"

/-- Status context derived from the configuration name. -/
def statusContext (configName : String) : String :=
  "sdm/" ++ (configName.replace "@" "")

/-- Translation of setGitHubStatusOnGoalCompletion: on a failed goal publish
a failure status linking the goal's url; else, when every goal of the set
succeeded, publish a success status; else publish nothing. -/
def setGitHubStatusOnGoalCompletion (sdmName configName : String)
    (completedGoal : SdmGoalEvent) (allGoals : List SdmGoalEvent) : Option GitHubStatus :=
  if completedGoal.state = SdmGoalState.failure then
    some { context := statusContext configName,
           description := statusDescriptionPrefix sdmName ++ ": " ++ completedGoal.description,
           targetUrl := completedGoal.url,
           state := "failure" }
  else if allSuccessful allGoals then
    some { context := statusContext configName,
           description := statusDescriptionPrefix sdmName ++ ": all succeeded",
           targetUrl := some "https://app.atomist.com",
           state := "success" }
  else none

/-! ## Goal signing and verification (goalSigning) -/

/-- A verification public key, from GoalVerificationKey. The key material is
abstracted to the key-pair identifier of the ideal signature model. -/
structure GoalVerificationKey where
  name : String
  publicKey : Nat
  deriving DecidableEq

/-- A signing private key, from GoalSigningKey, abstracted to the key-pair
identifier of the ideal signature model. -/
structure GoalSigningKey where
  name : String
  privateKey : Nat
  deriving DecidableEq

/-- Goal-signing configuration, from GoalSigningConfiguration. -/
structure GoalSigningConfiguration where
  enabled : Bool
  signingKey : Option GoalSigningKey
  verificationKeys : List GoalVerificationKey
  deriving DecidableEq

/-- Modelled from the spec: the crypto sign call of the external crypto
library produces an RSA-SHA512 signature over the message; in the ideal
model the signature records the message and the signing key identifier. -/
def cryptoSign (key : GoalSigningKey) (message : String) : IdealSignature :=
  { message := message, keyId := key.privateKey }

/-- Modelled from the spec: the crypto verify call of the external crypto
library accepts a signature exactly when it was produced over the same
message by the private key of the same key pair. -/
def cryptoVerify (vk : GoalVerificationKey) (message : String) (sig : IdealSignature) : Bool :=
  sig.message = message ∧ sig.keyId = vk.publicKey

/-- Serialization of the string enumeration value of a goal state. -/
def stateStr : SdmGoalState → String
  | SdmGoalState.planned => "planned"
  | SdmGoalState.requested => "requested"
  | SdmGoalState.waiting_for_pre_approval => "waiting_for_pre_approval"
  | SdmGoalState.pre_approved => "pre_approved"
  | SdmGoalState.waiting_for_approval => "waiting_for_approval"
  | SdmGoalState.approved => "approved"
  | SdmGoalState.in_process => "in_process"
  | SdmGoalState.success => "success"
  | SdmGoalState.failure => "failure"
  | SdmGoalState.skipped => "skipped"
  | SdmGoalState.stopped => "stopped"
  | SdmGoalState.canceled => "canceled"

/-- Modelled from the spec: the string enumeration values of the fulfillment
method live in the sdm library, which is not part of these sources; the three
members are serialized under their names. -/
def methodStr : SdmGoalFulfillmentMethod → String
  | SdmGoalFulfillmentMethod.Sdm => "Sdm"
  | SdmGoalFulfillmentMethod.SideEffect => "SideEffect"
  | SdmGoalFulfillmentMethod.Other => "Other"

/-- Translation of normalizeValue: a truthy value serializes to itself, an
absent or empty (falsy) value serializes to the text undefined. -/
def normalizeValue (value : Option String) : String :=
  match value with
  | some s => if s.isEmpty then "undefined" else s
  | none => "undefined"

/-- Serialization of a boolean field through normalizeValue: true is truthy,
false and absent are falsy. -/
def normalizeBoolValue (b : Bool) : String :=
  if b then "true" else "undefined"

/-- Serialization of an optional numeric field by direct interpolation. -/
def optNatStr (v : Option Nat) : String :=
  match v with
  | some n => toString n
  | none => "undefined"

/-- Translation of normalizeProvenance for a present provenance entry. -/
def normalizeProvenance (p : SdmProvenance) : String :=
  normalizeValue p.registration ++ ":" ++ normalizeValue p.version ++ "/" ++
    normalizeValue p.name ++ "-" ++ normalizeValue p.userId ++ "-" ++
    normalizeValue p.channelId ++ "-" ++ toString p.ts

/-- Translation of normalizeProvenance including its absent case. -/
def normalizeProvenanceOpt : Option SdmProvenance → String
  | some p => normalizeProvenance p
  | none => "undefined"

/-- Translation of normalizeGoal: the canonical line-structured serialization
of a goal event used for signing. The source template literal continues each
line with a newline followed by eight spaces of indentation; those separators
are written here as explicit newline-and-indent literals. -/
def normalizeGoal (goal : SdmGoalEvent) : String :=
  "uniqueName:" ++ goal.uniqueName ++ "\n" ++
  "        environment:" ++ goal.environment ++ "\n" ++
  "        goalSetId:" ++ goal.goalSetId ++ "\n" ++
  "        state:" ++ stateStr goal.state ++ "\n" ++
  "        ts:" ++ toString goal.ts ++ "\n" ++
  "        version:" ++ optNatStr goal.version ++ "\n" ++
  "        repo:" ++ goal.repo.owner ++ "/" ++ goal.repo.name ++ "/" ++ goal.repo.providerId ++ "\n" ++
  "        sha:" ++ goal.sha ++ "\n" ++
  "        branch:" ++ goal.branch ++ "\n" ++
  "        fulfillment:" ++ goal.fulfillment.name ++ "-" ++ methodStr goal.fulfillment.method ++ "\n" ++
  "        preConditions:" ++
    String.intercalate "," (goal.preConditions.map (fun p => p.environment ++ "/" ++ p.uniqueName)) ++ "\n" ++
  "        data:" ++ normalizeValue goal.data ++ "\n" ++
  "        url:" ++ normalizeValue goal.url ++ "\n" ++
  "        externalUrls:" ++ String.intercalate "," (goal.externalUrls.map (fun u => u.url)) ++ "\n" ++
  "        provenance:" ++ String.intercalate "," (goal.provenance.map normalizeProvenance) ++ "\n" ++
  "        retry:" ++ normalizeBoolValue goal.retryFeasible ++ "\n" ++
  "        approvalRequired:" ++ normalizeBoolValue goal.approvalRequired ++ "\n" ++
  "        approval:" ++ normalizeProvenanceOpt goal.approval ++ "\n" ++
  "        preApprovalRequired:" ++ normalizeBoolValue goal.preApprovalRequired ++ "\n" ++
  "        preApproval:" ++ normalizeProvenanceOpt goal.preApproval

/-- Outcome of verifyGoal: either the handler proceeds, or the goal is
rejected, meaning the recorded failure update is written through updateGoal
and an error is thrown that aborts processing of the event. -/
inductive VerifyOutcome where
  | ok
  | reject (update : GoalUpdate)
  deriving DecidableEq

/-- Translation of isGoalRejected. -/
def isGoalRejected (sdmGoal : SdmGoalEvent) : Bool :=
  sdmGoal.state = SdmGoalState.failure ∧
    sdmGoal.description = "Rejected: " ++ sdmGoal.name

/-- Translation of rejectGoal: the failure update it writes for a reason. -/
def rejectGoalUpdate (reason : String) (sdmGoal : SdmGoalEvent) : GoalUpdate :=
  { state := SdmGoalState.failure,
    description := "Rejected " ++ sdmGoal.name ++ " because " ++ reason }

/-- Translation of verifyGoal: when signing is enabled and the goal is not
already rejected, a missing signature rejects the goal, and a present
signature must be accepted by some configured verification key. -/
def verifyGoal (goal : SdmGoalEvent) (gsc : GoalSigningConfiguration) : VerifyOutcome :=
  if gsc.enabled = true ∧ ¬ (isGoalRejected goal) then
    match goal.signature with
    | some sig =>
      if (gsc.verificationKeys.find? (fun vk => cryptoVerify vk (normalizeGoal goal) sig)).isSome then
        VerifyOutcome.ok
      else
        VerifyOutcome.reject (rejectGoalUpdate "signature was invalid" goal)
    | none => VerifyOutcome.reject (rejectGoalUpdate "signature was missing" goal)
  else
    VerifyOutcome.ok

/-- Translation of signGoal: when signing is enabled and a signing key is
configured, the signature over the canonical serialization is stored on the
goal; otherwise the function returns undefined. -/
def signGoal (goal : SdmGoalEvent) (gsc : GoalSigningConfiguration) : Option SdmGoalEvent :=
  if gsc.enabled = true then
    match gsc.signingKey with
    | some key => some { goal with signature := some (cryptoSign key (normalizeGoal goal)) }
    | none => none
  else none

/-! ## Specification-side predicates for the precondition rule -/

/-- Specification wording: the goal lists the succeeded goal among its
preconditions, matched by environment and uniqueName. -/
def listsAmongPreconditions (succ : SdmGoalEvent) (g : SdmGoalEvent) : Prop :=
  ∃ p ∈ g.preConditions,
    p.environment = succ.environment ∧ p.uniqueName = succ.uniqueName

/-- Specification wording: candidacy is re-evaluated from planned, skipped,
or failure with retryFeasible set. -/
def candidacyState (g : SdmGoalEvent) : Prop :=
  g.state = SdmGoalState.planned ∨ g.state = SdmGoalState.skipped ∨
    (g.state = SdmGoalState.failure ∧ g.retryFeasible = true)

/-- Specification wording: every precondition of the goal is matched, by
environment and uniqueName, by a goal in state success in the same set. -/
def everyPreconditionSucceeded (g : SdmGoalEvent) (goals : List SdmGoalEvent) : Prop :=
  ∀ p ∈ g.preConditions, ∃ u ∈ goals,
    u.environment = p.environment ∧ u.uniqueName = p.uniqueName ∧
      u.state = SdmGoalState.success

/-- A goal whose fulfillment is a side effect registered under this SDM's
own name. -/
def isOwnSideEffect (g : SdmGoalEvent) (name : String) : Prop :=
  g.fulfillment.method = SdmGoalFulfillmentMethod.SideEffect ∧
    g.fulfillment.name = name

instance instDecListsAmong (succ g : SdmGoalEvent) :
    Decidable (listsAmongPreconditions succ g) := by
  unfold listsAmongPreconditions; exact inferInstance

instance instDecCandidacy (g : SdmGoalEvent) : Decidable (candidacyState g) := by
  unfold candidacyState; exact inferInstance

instance instDecEveryPre (g : SdmGoalEvent) (goals : List SdmGoalEvent) :
    Decidable (everyPreconditionSucceeded g goals) := by
  unfold everyPreconditionSucceeded; exact inferInstance

instance instDecOwnSideEffect (g : SdmGoalEvent) (name : String) :
    Decidable (isOwnSideEffect g name) := by
  unfold isOwnSideEffect; exact inferInstance

/-! ## Correspondence lemmas for the downstream-request filters -/

lemma isDirectlyDependentOn_iff (succ g : SdmGoalEvent) :
    isDirectlyDependentOn (goalKey succ) g = true ↔ listsAmongPreconditions succ g := by
  simp only [isDirectlyDependentOn, mapKeyToGoal, goalKey, listsAmongPreconditions]
  by_cases h : g.preConditions.isEmpty
  · have hnil : g.preConditions = [] := by
      cases hpc : g.preConditions with
      | nil => rfl
      | cons a l => rw [hpc] at h; simp [List.isEmpty] at h
    simp [h, hnil]
  · simp [h, List.find?_isSome]

lemma expectToBeFulfilled_iff (g : SdmGoalEvent) (name : String) :
    expectToBeFulfilledAfterRequest g name = true ↔ ¬ isOwnSideEffect g name := by
  cases hm : g.fulfillment.method <;>
    simp [expectToBeFulfilledAfterRequest, isOwnSideEffect, hm]

lemma shouldBePlannedOrSkipped_iff (g : SdmGoalEvent) :
    shouldBePlannedOrSkipped g = true ↔ candidacyState g := by
  unfold shouldBePlannedOrSkipped candidacyState
  split_ifs with h1 h2 h3 <;> simp_all

lemma preconditionsAreMet_iff (g : SdmGoalEvent) (goals : List SdmGoalEvent) :
    preconditionsAreMet g goals = true ↔ everyPreconditionSucceeded g goals := by
  simp [preconditionsAreMet, everyPreconditionSucceeded, List.all_eq_true,
    List.any_eq_true, and_assoc]

lemma mem_goalsToRequest_iff (goals : List SdmGoalEvent) (succ : SdmGoalEvent)
    (name : String) (g : SdmGoalEvent) :
    g ∈ goalsToRequest goals succ name ↔
      g ∈ goals ∧ listsAmongPreconditions succ g ∧ candidacyState g ∧
        everyPreconditionSucceeded g goals ∧ ¬ isOwnSideEffect g name := by
  simp only [goalsToRequest, List.mem_filter, isDirectlyDependentOn_iff,
    expectToBeFulfilled_iff, shouldBePlannedOrSkipped_iff, preconditionsAreMet_iff]
  tauto

/-! ## Sample goal events used for concrete evaluations -/

/-- A sample repository. -/
def sampleRepo : SdmRepo :=
  { owner := "org", name := "repo", providerId := "p1" }

/-- A sample goal event with unremarkable field values. -/
def baseGoal : SdmGoalEvent :=
  { uniqueName := "build", environment := "0-code", name := "build",
    goalSetId := "set1", state := SdmGoalState.planned, sha := "sha1",
    branch := "main", ts := 17, version := some 1, repo := sampleRepo,
    fulfillment := { name := "my-sdm", method := SdmGoalFulfillmentMethod.Sdm,
                     registration := "my-sdm" },
    preConditions := [], data := none, url := none, externalUrls := [],
    provenance := [], retryFeasible := false, approvalRequired := false,
    approval := none, preApprovalRequired := false, preApproval := none,
    description := "building", signature := none }

/-- A goal that has just reached success. -/
def succGoal : SdmGoalEvent :=
  { baseGoal with uniqueName := "compile", name := "compile",
                  state := SdmGoalState.success }

/-- A planned downstream goal fulfilled as a side effect under this SDM's
own name, depending on succGoal and with all preconditions successful. -/
def sideEffectGoal : SdmGoalEvent :=
  { baseGoal with uniqueName := "notify", name := "notify",
                  state := SdmGoalState.planned,
                  fulfillment := { name := "my-sdm",
                                   method := SdmGoalFulfillmentMethod.SideEffect,
                                   registration := "my-sdm" },
                  preConditions := [{ environment := "0-code", uniqueName := "compile" }] }

/-- A planned downstream goal fulfilled by this SDM, depending on succGoal. -/
def depGoal : SdmGoalEvent :=
  { baseGoal with uniqueName := "test", name := "test",
                  state := SdmGoalState.planned,
                  preConditions := [{ environment := "0-code", uniqueName := "compile" }] }

/-- A goal set containing the successful goal and the own-side-effect goal. -/
def goals0 : List SdmGoalEvent := [succGoal, sideEffectGoal]

/-- A goal set containing the successful goal and an Sdm-fulfilled dependent. -/
def goals1 : List SdmGoalEvent := [succGoal, depGoal]

/-! ## Claim C1 -/

/-- C1 (counterexample): a goal that lists the succeeded goal among its
preConditions, is planned, and has every precondition matched by a successful
goal of the set, is nevertheless not advanced, because its fulfillment is a
side effect registered under this SDM's own name; the claim asserts that
exactly the goals satisfying the three listed conditions are advanced. -/
theorem downstreamAdvancement_claim_counterexample :
    listsAmongPreconditions succGoal sideEffectGoal ∧
    candidacyState sideEffectGoal ∧
    everyPreconditionSucceeded sideEffectGoal goals0 ∧
    sideEffectGoal ∉ goalsToRequest goals0 succGoal "my-sdm" ∧
    advanceDownstreamGoals [] goals0 succGoal "my-sdm" = [] := by
  refine ⟨by decide, by decide, by decide, by decide, by decide⟩

/-- C1 (amended): when a goal of a set reaches success, the goals advanced
are exactly those of the set that list the succeeded goal among their
preConditions, are in state planned, skipped, or failure with retryFeasible,
have every precondition matched by environment and uniqueName by a goal in
state success in the set, and are not side-effect goals registered under
this SDM's own name; each advances to waiting_for_pre_approval when it
declares preApprovalRequired, otherwise to requested after its
fulfillment-callback chain has run, writing the possibly enriched data. -/
theorem downstreamAdvancement_exactly_amended
    (cbs : List (SdmGoalEvent → SdmGoalEvent)) (goals : List SdmGoalEvent)
    (succ : SdmGoalEvent) (name : String) (u : GoalAdvancement) :
    u ∈ advanceDownstreamGoals cbs goals succ name ↔
      ∃ g, g ∈ goals ∧ listsAmongPreconditions succ g ∧ candidacyState g ∧
        everyPreconditionSucceeded g goals ∧ ¬ isOwnSideEffect g name ∧
        u = (if g.preApprovalRequired then
               { target := g, state := SdmGoalState.waiting_for_pre_approval,
                 data := none }
             else
               { target := runCallbacks cbs g, state := SdmGoalState.requested,
                 data := some (runCallbacks cbs g).data }) := by
  simp only [advanceDownstreamGoals, List.mem_map]
  constructor
  · rintro ⟨g, hmem, rfl⟩
    obtain ⟨hg, h1, h2, h3, h4⟩ := (mem_goalsToRequest_iff goals succ name g).mp hmem
    exact ⟨g, hg, h1, h2, h3, h4, by simp [advanceOne]⟩
  · rintro ⟨g, hg, h1, h2, h3, h4, rfl⟩
    exact ⟨g, (mem_goalsToRequest_iff goals succ name g).mpr ⟨hg, h1, h2, h3, h4⟩,
      by simp [advanceOne]⟩

/-- C1 (witness): on a concrete set, the dependent Sdm-fulfilled planned goal
is advanced to requested. -/
theorem downstreamAdvancement_exactly_witness :
    ({ target := depGoal, state := SdmGoalState.requested,
       data := some depGoal.data } : GoalAdvancement) ∈
      advanceDownstreamGoals [] goals1 succGoal "my-sdm" :=
  (downstreamAdvancement_exactly_amended [] goals1 succGoal "my-sdm" _).mpr
    ⟨depGoal, by decide, by decide, by decide, by decide, by decide, by decide⟩

/-! ## Claim C10 -/

/-- C10: a goal whose fulfillment method is SideEffect and whose fulfillment
name equals this SDM's own registration name is never among the candidates
selected by the downstream-request engine, and every advancement performed
stems from a candidate distinct from it. -/
theorem ownSideEffectGoal_never_advanced
    (goals : List SdmGoalEvent) (succ : SdmGoalEvent) (name : String)
    (g : SdmGoalEvent)
    (hm : g.fulfillment.method = SdmGoalFulfillmentMethod.SideEffect)
    (hn : g.fulfillment.name = name) :
    g ∉ goalsToRequest goals succ name ∧
      ∀ cbs u, u ∈ advanceDownstreamGoals cbs goals succ name →
        ∃ c, c ∈ goalsToRequest goals succ name ∧ c ≠ g ∧ u = advanceOne cbs c := by
  have hnot : g ∉ goalsToRequest goals succ name := by
    intro hmem
    simp only [goalsToRequest, List.mem_filter] at hmem
    have hexp := hmem.1.1.2
    rw [expectToBeFulfilled_iff] at hexp
    exact hexp ⟨hm, hn⟩
  refine ⟨hnot, fun cbs u hu => ?_⟩
  simp only [advanceDownstreamGoals, List.mem_map] at hu
  obtain ⟨c, hc, hcu⟩ := hu
  refine ⟨c, hc, fun hcg => hnot (hcg ▸ hc), hcu.symm⟩

/-- C10 (witness): on the concrete set, the own-name side-effect goal is not
a candidate even though its only precondition succeeded. -/
theorem ownSideEffectGoal_never_advanced_witness :
    sideEffectGoal ∉ goalsToRequest goals0 succGoal "my-sdm" :=
  (ownSideEffectGoal_never_advanced goals0 succGoal "my-sdm" sideEffectGoal
    rfl rfl).1

/-! ## Claim C2 -/

/-- C2: at the fulfillment gate, a SideEffect goal registered for another
registration is skipped with no goal-state write and the handler returns
success; an Other goal is failed with a No fulfillment description and the
handler still returns success. -/
theorem fulfillmentGate_spec (g : SdmGoalEvent) (name : String) :
    (g.fulfillment.method = SdmGoalFulfillmentMethod.SideEffect →
      g.fulfillment.registration ≠ name →
      fulfillmentGate g name = FulfillDecision.skip ∧
        fulfillmentGateUpdates g name = [] ∧
        fulfillmentGateReturnsSuccess g name = true) ∧
    (g.fulfillment.method = SdmGoalFulfillmentMethod.Other →
      fulfillmentGate g name =
        FulfillDecision.failNoFulfillment
          { state := SdmGoalState.failure,
            description := "No fulfillment for " ++ g.uniqueName } ∧
        fulfillmentGateUpdates g name =
          [{ state := SdmGoalState.failure,
             description := "No fulfillment for " ++ g.uniqueName }] ∧
        fulfillmentGateReturnsSuccess g name = true) := by
  constructor
  · intro hm hr
    have hg : fulfillmentGate g name = FulfillDecision.skip := by
      unfold fulfillmentGate
      rw [if_pos ⟨hm, hr⟩]
    exact ⟨hg, by simp [fulfillmentGateUpdates, hg],
      by simp [fulfillmentGateReturnsSuccess, hg]⟩
  · intro hm
    have hg : fulfillmentGate g name =
        FulfillDecision.failNoFulfillment
          { state := SdmGoalState.failure,
            description := "No fulfillment for " ++ g.uniqueName } := by
      unfold fulfillmentGate
      simp [hm]
    exact ⟨hg, by simp [fulfillmentGateUpdates, hg],
      by simp [fulfillmentGateReturnsSuccess, hg]⟩

/-- A requested goal fulfilled as a side effect by another registration. -/
def foreignGoal : SdmGoalEvent :=
  { baseGoal with
      state := SdmGoalState.requested,
      fulfillment := { name := "other-sdm",
                       method := SdmGoalFulfillmentMethod.SideEffect,
                       registration := "other-sdm" } }

/-- A requested goal with no assigned fulfiller. -/
def otherMethodGoal : SdmGoalEvent :=
  { baseGoal with
      state := SdmGoalState.requested,
      fulfillment := { name := "", method := SdmGoalFulfillmentMethod.Other,
                       registration := "" } }

/-- C2 (witness): on concrete goals, the foreign side-effect goal is skipped
without writes and the Other goal produces exactly the failure write. -/
theorem fulfillmentGate_spec_witness :
    fulfillmentGate foreignGoal "my-sdm" = FulfillDecision.skip ∧
    fulfillmentGateUpdates foreignGoal "my-sdm" = [] ∧
    fulfillmentGateUpdates otherMethodGoal "my-sdm" =
      [{ state := SdmGoalState.failure,
         description := "No fulfillment for " ++ otherMethodGoal.uniqueName }] :=
  ⟨((fulfillmentGate_spec foreignGoal "my-sdm").1 rfl (by decide)).1,
   ((fulfillmentGate_spec foreignGoal "my-sdm").1 rfl (by decide)).2.1,
   ((fulfillmentGate_spec otherMethodGoal "my-sdm").2 rfl).2.1⟩

/-! ## Claim C6 -/

/-- C6: cancelling a goal set writes a canceled update for every goal whose
state is not terminal (not success, failure, canceled, skipped or stopped),
and writes nothing for any goal already in a terminal state. -/
theorem cancelGoalSet_spec (goals : List SdmGoalEvent) (g : SdmGoalEvent) :
    (g ∈ goals →
      g.state ∉ [SdmGoalState.success, SdmGoalState.failure, SdmGoalState.canceled,
        SdmGoalState.skipped, SdmGoalState.stopped] →
      (g, { state := SdmGoalState.canceled,
            description := "Canceled " ++ g.name }) ∈ cancelGoalSetUpdates goals) ∧
    (g.state ∈ [SdmGoalState.success, SdmGoalState.failure, SdmGoalState.canceled,
        SdmGoalState.skipped, SdmGoalState.stopped] →
      ∀ u, (g, u) ∉ cancelGoalSetUpdates goals) := by
  have hset : ∀ s : SdmGoalState, s ∈ cancelSkipStates ↔
      s ∈ [SdmGoalState.success, SdmGoalState.failure, SdmGoalState.canceled,
           SdmGoalState.skipped, SdmGoalState.stopped] := by
    intro s
    simp only [cancelSkipStates, List.mem_cons, List.not_mem_nil]
    tauto
  constructor
  · intro hg hterm
    simp only [cancelGoalSetUpdates, List.mem_map]
    refine ⟨g, ?_, rfl⟩
    rw [List.mem_filter]
    refine ⟨hg, ?_⟩
    simp only [decide_eq_true_eq]
    intro hmem
    exact hterm ((hset g.state).mp hmem)
  · intro hterm u hu
    simp only [cancelGoalSetUpdates, List.mem_map] at hu
    obtain ⟨g2, hg2, heq⟩ := hu
    have hgg : g2 = g := congrArg Prod.fst heq
    subst hgg
    rw [List.mem_filter] at hg2
    have := hg2.2
    simp only [decide_eq_true_eq] at this
    exact this ((hset g2.state).mpr hterm)

/-- C6 (witness): in a concrete set, the planned goal receives the canceled
write and the successful goal receives no write. -/
theorem cancelGoalSet_spec_witness :
    (depGoal, { state := SdmGoalState.canceled,
                description := "Canceled " ++ depGoal.name }) ∈
        cancelGoalSetUpdates goals1 ∧
      ∀ u, (succGoal, u) ∉ cancelGoalSetUpdates goals1 :=
  ⟨(cancelGoalSet_spec goals1 depGoal).1 (by decide) (by decide),
   (cancelGoalSet_spec goals1 succGoal).2 (by decide)⟩

/-! ## Claim C9 -/

lemma allSuccessful_iff (goals : List SdmGoalEvent) :
    allSuccessful goals = true ↔ ∀ g ∈ goals, g.state = SdmGoalState.success := by
  simp only [allSuccessful, Bool.not_eq_true', List.any_eq_false, decide_eq_true_eq]
  constructor
  · intro h g hg
    have := h g hg
    simpa using this
  · intro h g hg
    simp [h g hg]

/-- C9: the completion reactor publishes a failure status whose target url is
the completed goal's log url whenever the completed goal failed, and it
publishes a success status exactly when no goal of the set has a state other
than success. -/
theorem goalCompletion_status_spec (sdmName configName : String)
    (completed : SdmGoalEvent) (allGoals : List SdmGoalEvent)
    (hmem : completed ∈ allGoals) :
    (completed.state = SdmGoalState.failure →
      setGitHubStatusOnGoalCompletion sdmName configName completed allGoals =
        some { context := statusContext configName,
               description := statusDescriptionPrefix sdmName ++ ": " ++
                 completed.description,
               targetUrl := completed.url, state := "failure" }) ∧
    ((∃ st, setGitHubStatusOnGoalCompletion sdmName configName completed allGoals =
        some st ∧ st.state = "success") ↔
      ∀ g ∈ allGoals, g.state = SdmGoalState.success) := by
  constructor
  · intro hf
    unfold setGitHubStatusOnGoalCompletion
    rw [if_pos hf]
  · constructor
    · rintro ⟨st, hst, hstate⟩
      by_cases hf : completed.state = SdmGoalState.failure
      · unfold setGitHubStatusOnGoalCompletion at hst
        rw [if_pos hf] at hst
        have hstA := Option.some.inj hst
        rw [← hstA] at hstate
        simp at hstate
      · unfold setGitHubStatusOnGoalCompletion at hst
        rw [if_neg hf] at hst
        by_cases hall : allSuccessful allGoals = true
        · exact (allSuccessful_iff allGoals).mp hall
        · rw [if_neg hall] at hst
          cases hst
    · intro hall
      have hcs : completed.state = SdmGoalState.success := hall completed hmem
      have hf : ¬ completed.state = SdmGoalState.failure := by
        rw [hcs]; decide
      have hA : allSuccessful allGoals = true := (allSuccessful_iff allGoals).mpr hall
      refine ⟨{ context := statusContext configName,
                description := statusDescriptionPrefix sdmName ++ ": all succeeded",
                targetUrl := some "https://app.atomist.com", state := "success" },
        ?_, rfl⟩
      unfold setGitHubStatusOnGoalCompletion
      rw [if_neg hf, if_pos hA]

/-- C9 (witness): a concrete all-successful set yields a success status. -/
theorem goalCompletion_status_spec_witness :
    ∃ st, setGitHubStatusOnGoalCompletion "my-sdm" "my-sdm" succGoal [succGoal] =
      some st ∧ st.state = "success" :=
  (goalCompletion_status_spec "my-sdm" "my-sdm" succGoal [succGoal]
    (by decide)).2.mpr (by decide)

/-! ## Claim C7 -/

/-- An execution environment in which the in-process executor throws. -/
def envThrow : ExecutionEnv :=
  { scheduler := none, executor := ExecutorBehavior.throws "boom" }

/-- The result the catch block of the dispatcher builds from a thrown error
whose original message is msg. -/
def capturedResult (msg : String) : ExecuteGoalResult :=
  { code := some 1,
    message := some ("Goal executor threw exception: " ++ msg),
    state := some SdmGoalState.failure,
    phase := none,
    description := none }

/-- C7 (counterexample): when the executor throws, the captured result
carries the prefixed message, not the original one, and the handler rethrows
the error instead of returning success to the bus. -/
theorem executorThrow_claim_counterexample :
    (fulfillExecution envThrow).outcome =
      HandlerOutcome.thrown ("Goal executor threw exception: " ++ "boom") ∧
    (fulfillExecution envThrow).outcome ≠ HandlerOutcome.success ∧
    (fulfillExecution envThrow).trace =
      [Effect.reportStart, Effect.runExecutor,
       Effect.reportEnd (some (capturedResult "boom")), Effect.closeLog] ∧
    (capturedResult "boom").message ≠ some "boom" := by
  exact ⟨rfl, by decide, rfl, by decide⟩

/-- C7 (amended): when the executor throws, the error is captured as a
result with code 1, state failure, and the message prefixed with the text
Goal executor threw exception; the result is reported and the log closed,
and the handler then rethrows the error, so the bus sees a failure rather
than success. -/
theorem executorThrow_captured_amended (env : ExecutionEnv) (msg : String)
    (hs : env.scheduler = none) (he : env.executor = ExecutorBehavior.throws msg) :
    (fulfillExecution env).trace =
      [Effect.reportStart, Effect.runExecutor,
       Effect.reportEnd (some (capturedResult msg)), Effect.closeLog] ∧
    (capturedResult msg).code = some 1 ∧
    (capturedResult msg).state = some SdmGoalState.failure ∧
    (fulfillExecution env).outcome =
      HandlerOutcome.thrown ("Goal executor threw exception: " ++ msg) := by
  unfold fulfillExecution
  rw [hs, he]
  exact ⟨rfl, rfl, rfl, rfl⟩

/-- An execution environment in which the executor throws with message x. -/
def envThrowX : ExecutionEnv :=
  { scheduler := none, executor := ExecutorBehavior.throws "x" }

/-- C7 (witness): a concrete throwing execution produces the rethrown
outcome with the prefixed message. -/
theorem executorThrow_captured_amended_witness :
    (fulfillExecution envThrowX).outcome =
      HandlerOutcome.thrown ("Goal executor threw exception: " ++ "x") :=
  (executorThrow_captured_amended envThrowX "x" rfl rfl).2.2.2

/-! ## Claim C8 -/

/-- A scheduler result with a non-zero code and nothing else. -/
def schedFailResult : ExecuteGoalResult :=
  { code := some 1,
    message := none,
    state := none,
    phase := none,
    description := none }

/-- An execution environment whose scheduler returns a failing code. -/
def envSchedFail : ExecutionEnv :=
  { scheduler := some (some schedFailResult),
    executor := ExecutorBehavior.returns none }

/-- C8 (counterexample): on the scheduler-failure path the log close is
present in the trace but does not happen before the terminal failure state
is published; the publish comes first. -/
theorem closeBeforePublish_claim_counterexample :
    Effect.closeLog ∈ (fulfillExecution envSchedFail).trace ∧
    closesBeforeTerminalPublish (fulfillExecution envSchedFail).trace = false := by
  exact ⟨by decide, by decide⟩

/-- C8 (amended): on every exit path of a dispatched goal — executor result
with a terminating (or absent) state, thrown exception, and scheduler
failure — the progress log is closed; the close is the last effect and
therefore follows, rather than precedes, the publication of the goal's
terminal state (the dispatcher's failure publish on the scheduler path, and
the terminal update made inside the executeGoal call on the executor
paths). -/
theorem dispatchClose_on_exit_paths_amended (env : ExecutionEnv) :
    (∀ r, env.scheduler = some r → schedulerResultFailed r = true →
      (fulfillExecution env).trace =
        [Effect.publishGoal SdmGoalState.failure (some "Failed to schedule goal"),
         Effect.reportEnd r, Effect.closeLog]) ∧
    (∀ res, env.scheduler = none → env.executor = ExecutorBehavior.returns res →
      executorResultCloses res = true →
      (fulfillExecution env).trace =
        [Effect.reportStart, Effect.runExecutor, Effect.reportEnd res,
         Effect.closeLog]) ∧
    (∀ msg, env.scheduler = none → env.executor = ExecutorBehavior.throws msg →
      Effect.closeLog ∈ (fulfillExecution env).trace) := by
  refine ⟨?_, ?_, ?_⟩
  · intro r hs hfail
    unfold fulfillExecution
    rw [hs]
    simp [hfail, reportEndAndClose]
  · intro res hs he hcl
    unfold fulfillExecution
    rw [hs, he]
    simp [hcl, reportEndAndClose]
  · intro msg hs he
    unfold fulfillExecution
    rw [hs, he]
    simp [reportEndAndClose]

/-- An execution environment whose executor returns no result. -/
def envReturnsNone : ExecutionEnv :=
  { scheduler := none, executor := ExecutorBehavior.returns none }

/-- C8 (witness): a concrete in-process execution with an absent result
reports and closes the log after the executor ran. -/
theorem dispatchClose_on_exit_paths_amended_witness :
    (fulfillExecution envReturnsNone).trace =
      [Effect.reportStart, Effect.runExecutor, Effect.reportEnd none,
       Effect.closeLog] :=
  (dispatchClose_on_exit_paths_amended envReturnsNone).2.1 none rfl rfl rfl

/-! ## Claim C4 -/

lemma str_append_assoc (a b c : String) : a ++ b ++ c = a ++ (b ++ c) :=
  String.ext (by simp [String.data_append, List.append_assoc])

/-- A signing configuration with signing enabled and one verification key. -/
def gscEnabled : GoalSigningConfiguration :=
  { enabled := true, signingKey := none,
    verificationKeys := [{ name := "atomist.com/sdm", publicKey := 1 }] }

/-- C4 (counterexample): the rejection description written for a concrete
unsigned goal contains the goal's name, so it is not exactly of the form the
claim states. -/
theorem rejectionDescription_claim_counterexample :
    verifyGoal baseGoal gscEnabled =
      VerifyOutcome.reject
        { state := SdmGoalState.failure,
          description := "Rejected build because signature was missing" } ∧
    ("Rejected build because signature was missing" ≠
      "Rejected because signature was missing") ∧
    ("Rejected build because signature was missing" ≠
      "Rejected because signature was invalid") := by
  exact ⟨by decide, by decide, by decide⟩

/-- C4 (amended): when signing is enabled and the goal is not already marked
rejected, a missing signature, or a signature verified by no configured key,
updates the goal to failure with description Rejected, then the goal name,
then because signature was missing or invalid, and processing of the event
is aborted. -/
theorem verifyGoal_rejection_amended (g : SdmGoalEvent)
    (gsc : GoalSigningConfiguration)
    (hen : gsc.enabled = true) (hnr : isGoalRejected g = false) :
    (g.signature = none →
      verifyGoal g gsc = VerifyOutcome.reject
        { state := SdmGoalState.failure,
          description := "Rejected " ++ g.name ++ " because signature was missing" }) ∧
    (∀ sig, g.signature = some sig →
      (∀ vk ∈ gsc.verificationKeys, cryptoVerify vk (normalizeGoal g) sig = false) →
      verifyGoal g gsc = VerifyOutcome.reject
        { state := SdmGoalState.failure,
          description := "Rejected " ++ g.name ++ " because signature was invalid" }) := by
  have hcond : gsc.enabled = true ∧ ¬ (isGoalRejected g = true) := by
    exact ⟨hen, by simp [hnr]⟩
  have hmiss : rejectGoalUpdate "signature was missing" g =
      { state := SdmGoalState.failure,
        description := "Rejected " ++ g.name ++ " because signature was missing" } := by
    unfold rejectGoalUpdate
    rw [str_append_assoc]
    rfl
  have hinv : rejectGoalUpdate "signature was invalid" g =
      { state := SdmGoalState.failure,
        description := "Rejected " ++ g.name ++ " because signature was invalid" } := by
    unfold rejectGoalUpdate
    rw [str_append_assoc]
    rfl
  constructor
  · intro hsig
    unfold verifyGoal
    rw [if_pos hcond, hsig]
    show VerifyOutcome.reject (rejectGoalUpdate "signature was missing" g) = _
    rw [hmiss]
  · intro sig hsig hnone
    have hfind : gsc.verificationKeys.find?
        (fun vk => cryptoVerify vk (normalizeGoal g) sig) = none := by
      rw [List.find?_eq_none]
      intro vk hvk
      simp [hnone vk hvk]
    unfold verifyGoal
    rw [if_pos hcond, hsig]
    show (if (gsc.verificationKeys.find?
          (fun vk => cryptoVerify vk (normalizeGoal g) sig)).isSome = true then
        VerifyOutcome.ok
      else VerifyOutcome.reject (rejectGoalUpdate "signature was invalid" g)) = _
    rw [hfind, hinv]
    rfl

/-- A goal carrying a signature no configured key accepts. -/
def badSigGoal : SdmGoalEvent :=
  { baseGoal with signature := some { message := "m", keyId := 99 } }

/-! ## Claim C3 -/

lemma normalizeGoal_set_signature (g : SdmGoalEvent) (s : Option IdealSignature) :
    normalizeGoal { g with signature := s } = normalizeGoal g := rfl

lemma normalizeGoal_sha_inj (g : SdmGoalEvent) (a b : String)
    (h : normalizeGoal { g with sha := a } = normalizeGoal { g with sha := b }) :
    a = b := by
  have hd := congrArg String.data h
  simp only [normalizeGoal, String.data_append, List.append_assoc] at hd
  simp only [List.append_cancel_left_eq] at hd
  exact String.ext (List.append_cancel_right hd)

lemma verify_ok_of_key_found (t : SdmGoalEvent) (gsc : GoalSigningConfiguration)
    (sig : IdealSignature) (hen : gsc.enabled = true)
    (hsig : t.signature = some sig)
    (hfound : ∃ vk ∈ gsc.verificationKeys,
      cryptoVerify vk (normalizeGoal t) sig = true) :
    verifyGoal t gsc = VerifyOutcome.ok := by
  unfold verifyGoal
  by_cases hrej : isGoalRejected t = true
  · rw [if_neg (fun hc => hc.2 hrej)]
  · rw [if_pos ⟨hen, hrej⟩, hsig]
    show (if (gsc.verificationKeys.find?
          (fun vk => cryptoVerify vk (normalizeGoal t) sig)).isSome = true then
        VerifyOutcome.ok
      else VerifyOutcome.reject (rejectGoalUpdate "signature was invalid" t)) =
      VerifyOutcome.ok
    rw [if_pos (List.find?_isSome.mpr hfound)]

lemma verify_reject_of_message_mismatch (t : SdmGoalEvent)
    (gsc : GoalSigningConfiguration) (sig : IdealSignature)
    (hen : gsc.enabled = true) (hrej : isGoalRejected t = false)
    (hsig : t.signature = some sig) (hm : sig.message ≠ normalizeGoal t) :
    verifyGoal t gsc = VerifyOutcome.reject
      (rejectGoalUpdate "signature was invalid" t) := by
  have hnof : (gsc.verificationKeys.find?
      (fun vk => cryptoVerify vk (normalizeGoal t) sig)) = none := by
    rw [List.find?_eq_none]
    intro vk hvk
    simp only [cryptoVerify, decide_eq_true_eq, not_and]
    intro h1
    exact absurd h1 hm
  unfold verifyGoal
  rw [if_pos ⟨hen, by simp [hrej]⟩, hsig]
  show (if (gsc.verificationKeys.find?
        (fun vk => cryptoVerify vk (normalizeGoal t) sig)).isSome = true then
      VerifyOutcome.ok
    else VerifyOutcome.reject (rejectGoalUpdate "signature was invalid" t)) = _
  rw [hnof]
  rfl

/-- The signing key of the concrete witness configuration. -/
def signKeyW : GoalSigningKey := { name := "k", privateKey := 5 }

/-- A concrete signing configuration whose verification keys contain the
public counterpart of the signing key. -/
def gscSign : GoalSigningConfiguration :=
  { enabled := true, signingKey := some signKeyW,
    verificationKeys := [{ name := "k", publicKey := 5 }] }

/-- The concrete sample goal as signed by signGoal under gscSign. -/
def signedBase : SdmGoalEvent :=
  { baseGoal with signature := some (cryptoSign signKeyW (normalizeGoal baseGoal)) }

/-- A goal signed over an absent data field and then tampered by setting the
data field to the empty string; both values serialize to the text undefined,
so the canonical form is unchanged. -/
def dataTamperedGoal : SdmGoalEvent := { signedBase with data := some "" }

set_option maxRecDepth 8192 in
/-- C3 (counterexample): tampering with the signed data field by changing it
from absent to the empty string is not detected: normalizeValue serializes
both to the text undefined, the canonical serialization is unchanged, and
verification of the tampered goal still succeeds against the configured
keys, refuting the claim that tampering with any signed field fails against
every configured key. -/
theorem tamperUndetected_claim_counterexample :
    dataTamperedGoal.data ≠ signedBase.data ∧
    dataTamperedGoal.signature = signedBase.signature ∧
    normalizeGoal dataTamperedGoal = normalizeGoal signedBase ∧
    verifyGoal dataTamperedGoal gscSign = VerifyOutcome.ok := by
  exact ⟨by decide, by decide, by decide, by decide⟩

/-- C3 (amended): with signing enabled and a signing key configured, a goal
signed by signGoal verifies successfully against a verification-key set
containing the signing key's public counterpart; and tampering that changes
the canonical serialization of the signed goal — for example changing the
sha — fails against every configured key and rejects the goal, provided the
tampered goal is not already marked rejected (verification is skipped for
already-rejected goals); tampering that leaves the canonical serialization
unchanged is not detected. -/
theorem signVerify_roundtrip_and_tamper (g : SdmGoalEvent)
    (gsc : GoalSigningConfiguration) (sk : GoalSigningKey)
    (signed : SdmGoalEvent) (sha2 : String)
    (hen : gsc.enabled = true) (hk : gsc.signingKey = some sk)
    (hsg : signGoal g gsc = some signed) :
    ((∃ vk ∈ gsc.verificationKeys, vk.publicKey = sk.privateKey) →
      verifyGoal signed gsc = VerifyOutcome.ok) ∧
    (∀ t : SdmGoalEvent, t.signature = signed.signature →
      normalizeGoal t ≠ normalizeGoal g → isGoalRejected t = false →
      verifyGoal t gsc = VerifyOutcome.reject
        (rejectGoalUpdate "signature was invalid" t)) ∧
    (sha2 ≠ g.sha → isGoalRejected { signed with sha := sha2 } = false →
      verifyGoal { signed with sha := sha2 } gsc =
        VerifyOutcome.reject
          (rejectGoalUpdate "signature was invalid" { signed with sha := sha2 })) := by
  have hsigned : signed = { g with signature := some (cryptoSign sk (normalizeGoal g)) } := by
    unfold signGoal at hsg
    rw [if_pos hen, hk] at hsg
    exact (Option.some.inj hsg).symm
  have hsigval : signed.signature = some (cryptoSign sk (normalizeGoal g)) := by
    rw [hsigned]
  have hnorm : normalizeGoal signed = normalizeGoal g := by
    rw [hsigned]; rfl
  refine ⟨?_, ?_, ?_⟩
  · rintro ⟨vk, hvk, hpk⟩
    refine verify_ok_of_key_found signed gsc _ hen hsigval ⟨vk, hvk, ?_⟩
    simp [cryptoVerify, cryptoSign, hnorm, hpk]
  · intro t hts hchanged hrej
    have hts2 : t.signature = some (cryptoSign sk (normalizeGoal g)) := by
      rw [hts, hsigval]
    have hm : (cryptoSign sk (normalizeGoal g)).message ≠ normalizeGoal t := by
      intro h
      exact hchanged h.symm
    exact verify_reject_of_message_mismatch t gsc _ hen hrej hts2 hm
  · intro hne hrej
    have hts : ({ signed with sha := sha2 } : SdmGoalEvent).signature =
        some (cryptoSign sk (normalizeGoal g)) := hsigval
    have htn : normalizeGoal { signed with sha := sha2 } =
        normalizeGoal { g with sha := sha2 } := by
      rw [hsigned]; rfl
    have hm : (cryptoSign sk (normalizeGoal g)).message ≠
        normalizeGoal { signed with sha := sha2 } := by
      rw [htn]
      intro heq
      have heq2 : normalizeGoal { g with sha := g.sha } =
          normalizeGoal { g with sha := sha2 } := heq
      exact hne (normalizeGoal_sha_inj g g.sha sha2 heq2).symm
    exact verify_reject_of_message_mismatch _ gsc _ hen hrej hts hm

/-- C3 (witness): the concrete signed goal verifies, and tampering with its
sha makes verification fail and the goal be rejected. -/
theorem signVerify_roundtrip_and_tamper_witness :
    verifyGoal signedBase gscSign = VerifyOutcome.ok ∧
    verifyGoal { signedBase with sha := "tampered" } gscSign =
      VerifyOutcome.reject (rejectGoalUpdate "signature was invalid"
        { signedBase with sha := "tampered" }) :=
  ⟨(signVerify_roundtrip_and_tamper baseGoal gscSign signKeyW signedBase "tampered"
      rfl rfl rfl).1 ⟨{ name := "k", publicKey := 5 }, by decide, rfl⟩,
   (signVerify_roundtrip_and_tamper baseGoal gscSign signKeyW signedBase "tampered"
      rfl rfl rfl).2.2 (by decide) (by decide)⟩

/-! ## Claim C5 -/

/-- A goal event whose uniqueName embeds a newline and a forged
environment line. -/
def goalNlA : SdmGoalEvent :=
  { baseGoal with uniqueName := "a\n        environment:b", environment := "c" }

/-- A goal event with a different uniqueName whose environment embeds the
same forged line, colliding with goalNlA under normalizeGoal. -/
def goalNlB : SdmGoalEvent :=
  { baseGoal with uniqueName := "a", environment := "b\n        environment:c" }

set_option maxRecDepth 8192 in
/-- C5 (counterexample): two goal events with different uniqueName whose
canonical serializations are equal, because a newline embedded in a field
lets one field forge the following line. -/
theorem serializationInjectivity_claim_counterexample :
    goalNlA.uniqueName ≠ goalNlB.uniqueName ∧
    normalizeGoal goalNlA = normalizeGoal goalNlB := by
  exact ⟨by decide, by decide⟩

/-- A string containing no newline character. -/
def noNewline (s : String) : Prop := '\n' ∉ s.data

instance instDecNoNewline (s : String) : Decidable (noNewline s) := by
  unfold noNewline; exact inferInstance

lemma noNL_append {s t : String} (hs : '\n' ∉ s.data) (ht : '\n' ∉ t.data) :
    '\n' ∉ (s ++ t).data := by
  rw [String.data_append]
  intro h
  rcases List.mem_append.mp h with h1 | h1
  · exact hs h1
  · exact ht h1

lemma stateStr_ne_nl (s : SdmGoalState) : '\n' ∉ (stateStr s).data := by
  cases s <;> decide

lemma stateStr_inj {s1 s2 : SdmGoalState} (h : stateStr s1 = stateStr s2) :
    s1 = s2 := by
  cases s1 <;> cases s2 <;> first | rfl | exact absurd h (by decide)

/-- Value of a decimal digit character. -/
def digitVal (c : Char) : Nat := c.toNat - 48

lemma digitVal_digitChar : ∀ n < 10, digitVal (Nat.digitChar n) = n := by decide

lemma digitChar_ne_nl : ∀ n < 10, Nat.digitChar n ≠ '\n' := by decide

lemma toDigitsCore_eq_digits (fuel : Nat) :
    ∀ n acc, n ≠ 0 → n < fuel →
      Nat.toDigitsCore 10 fuel n acc =
        ((Nat.digits 10 n).reverse.map Nat.digitChar) ++ acc := by
  induction fuel with
  | zero =>
    intro n acc h0 hlt
    exact absurd hlt (by omega)
  | succ f ih =>
    intro n acc h0 hlt
    rw [Nat.digits_def' (by norm_num : (1:ℕ) < 10) (Nat.pos_of_ne_zero h0)]
    by_cases hdiv : n / 10 = 0
    · simp only [Nat.toDigitsCore, hdiv, if_true, Nat.digits_zero, List.reverse_cons,
        List.reverse_nil, List.nil_append, List.map_cons, List.map_nil,
        List.singleton_append]
    · have hlt2 : n / 10 < f := by
        have h1 : n / 10 < n := Nat.div_lt_self (Nat.pos_of_ne_zero h0) (by norm_num)
        omega
      simp only [Nat.toDigitsCore, hdiv, if_false]
      rw [ih (n / 10) (Nat.digitChar (n % 10) :: acc) hdiv hlt2]
      simp [List.append_assoc]

lemma repr_data_eq (n : Nat) (h0 : n ≠ 0) :
    (Nat.repr n).data = (Nat.digits 10 n).reverse.map Nat.digitChar := by
  show (Nat.toDigits 10 n).asString.data = _
  unfold Nat.toDigits
  rw [toDigitsCore_eq_digits (n + 1) n [] h0 (by omega)]
  simp [List.asString]

lemma nl_not_mem_repr (n : Nat) : '\n' ∉ (Nat.repr n).data := by
  by_cases h0 : n = 0
  · subst h0; decide
  · rw [repr_data_eq n h0]
    intro hmem
    rw [List.mem_map] at hmem
    obtain ⟨d, hd, hdc⟩ := hmem
    have hd10 : d < 10 :=
      Nat.digits_lt_base (by norm_num) (List.mem_reverse.mp hd)
    exact digitChar_ne_nl d hd10 hdc

/-- Decimal decoding of a most-significant-first digit character list. -/
def natDecode (l : List Char) : Nat := l.foldl (fun a c => 10 * a + digitVal c) 0

lemma foldl_digits (L : List Nat) (hL : ∀ d ∈ L, d < 10) : ∀ a : Nat,
    List.foldl (fun x c => 10 * x + digitVal c) a (L.reverse.map Nat.digitChar) =
      a * 10 ^ L.length + Nat.ofDigits 10 L := by
  induction L with
  | nil => intro a; simp
  | cons d rest ih =>
    intro a
    have hd : d < 10 := hL d (by simp)
    have hrest : ∀ x ∈ rest, x < 10 := fun x hx => hL x (by simp [hx])
    simp only [List.reverse_cons, List.map_append, List.foldl_append, List.map_cons,
      List.map_nil, List.foldl_cons, List.foldl_nil]
    rw [ih hrest a, digitVal_digitChar d hd, Nat.ofDigits_cons, List.length_cons]
    ring

lemma natDecode_repr (n : Nat) : natDecode (Nat.repr n).data = n := by
  by_cases h0 : n = 0
  · subst h0; decide
  · rw [repr_data_eq n h0]
    unfold natDecode
    rw [foldl_digits (Nat.digits 10 n)
      (fun d hd => Nat.digits_lt_base (by norm_num) hd) 0]
    simp [Nat.ofDigits_digits]

lemma reprNat_inj {m n : Nat} (h : Nat.repr m = Nat.repr n) : m = n := by
  rw [← natDecode_repr m, ← natDecode_repr n, h]

lemma optNatStr_ne_nl (v : Option Nat) : '\n' ∉ (optNatStr v).data := by
  cases v with
  | none => decide
  | some n => exact nl_not_mem_repr n

lemma split_at_newline (a : List Char) :
    ∀ (b x y : List Char), '\n' ∉ a → '\n' ∉ b →
      a ++ '\n' :: x = b ++ '\n' :: y → a = b ∧ x = y := by
  induction a with
  | nil =>
    intro b x y _ hb h
    cases b with
    | nil => simpa using h
    | cons c bs =>
      simp only [List.nil_append, List.cons_append, List.cons.injEq] at h
      exact absurd (by rw [← h.1]; exact List.mem_cons_self _ _) hb
  | cons c as ih =>
    intro b x y ha hb h
    cases b with
    | nil =>
      simp only [List.nil_append, List.cons_append, List.cons.injEq] at h
      exact absurd (by rw [h.1]; exact List.mem_cons_self _ _) ha
    | cons d bs =>
      simp only [List.cons_append, List.cons.injEq] at h
      obtain ⟨hcd, hrest⟩ := h
      have ha2 : '\n' ∉ as := fun hm => ha (List.mem_cons_of_mem _ hm)
      have hb2 : '\n' ∉ bs := fun hm => hb (List.mem_cons_of_mem _ hm)
      obtain ⟨h1, h2⟩ := ih bs x y ha2 hb2 hrest
      exact ⟨by rw [hcd, h1], h2⟩

/-- Newline-joined chain of line contents in front of a tail. -/
def lineChain (items : List (List Char)) (tail : List Char) : List Char :=
  match items with
  | [] => tail
  | i :: rest => i ++ '\n' :: lineChain rest tail

lemma lineChain_inj (items1 : List (List Char)) :
    ∀ (items2 : List (List Char)) (t1 t2 : List Char),
      items1.length = items2.length →
      (∀ i ∈ items1, '\n' ∉ i) → (∀ i ∈ items2, '\n' ∉ i) →
      lineChain items1 t1 = lineChain items2 t2 →
      items1 = items2 ∧ t1 = t2 := by
  induction items1 with
  | nil =>
    intro items2 t1 t2 hlen _ _ h
    cases items2 with
    | nil => exact ⟨rfl, h⟩
    | cons b bs => simp at hlen
  | cons a as ih =>
    intro items2 t1 t2 hlen h1 h2 h
    cases items2 with
    | nil => simp at hlen
    | cons b bs =>
      simp only [lineChain] at h
      have ha : '\n' ∉ a := h1 a (by simp)
      have hb : '\n' ∉ b := h2 b (by simp)
      obtain ⟨hab, hrest⟩ :=
        split_at_newline a b (lineChain as t1) (lineChain bs t2) ha hb h
      obtain ⟨hs, ht⟩ := ih bs t1 t2 (by simpa using hlen)
        (fun i hi => h1 i (by simp [hi])) (fun i hi => h2 i (by simp [hi])) hrest
      exact ⟨by rw [hab, hs], ht⟩

/-- Contents of the first eight lines of the canonical serialization. -/
def sigLines (g : SdmGoalEvent) : List (List Char) :=
  [("uniqueName:" ++ g.uniqueName).data,
   ("        environment:" ++ g.environment).data,
   ("        goalSetId:" ++ g.goalSetId).data,
   ("        state:" ++ stateStr g.state).data,
   ("        ts:" ++ toString g.ts).data,
   ("        version:" ++ optNatStr g.version).data,
   ("        repo:" ++ g.repo.owner ++ "/" ++ g.repo.name ++ "/" ++ g.repo.providerId).data,
   ("        sha:" ++ g.sha).data]

/-- Remainder of the canonical serialization after the sha line. -/
def sigTail (g : SdmGoalEvent) : List Char :=
  ("        branch:" ++ g.branch ++ "\n" ++
   "        fulfillment:" ++ g.fulfillment.name ++ "-" ++ methodStr g.fulfillment.method ++ "\n" ++
   "        preConditions:" ++
     String.intercalate "," (g.preConditions.map (fun p => p.environment ++ "/" ++ p.uniqueName)) ++ "\n" ++
   "        data:" ++ normalizeValue g.data ++ "\n" ++
   "        url:" ++ normalizeValue g.url ++ "\n" ++
   "        externalUrls:" ++ String.intercalate "," (g.externalUrls.map (fun u => u.url)) ++ "\n" ++
   "        provenance:" ++ String.intercalate "," (g.provenance.map normalizeProvenance) ++ "\n" ++
   "        retry:" ++ normalizeBoolValue g.retryFeasible ++ "\n" ++
   "        approvalRequired:" ++ normalizeBoolValue g.approvalRequired ++ "\n" ++
   "        approval:" ++ normalizeProvenanceOpt g.approval ++ "\n" ++
   "        preApprovalRequired:" ++ normalizeBoolValue g.preApprovalRequired ++ "\n" ++
   "        preApproval:" ++ normalizeProvenanceOpt g.preApproval).data

lemma data_nl : ("\n" : String).data = ['\n'] := rfl

set_option maxRecDepth 8192 in
lemma normalizeGoal_lineChain (g : SdmGoalEvent) :
    (normalizeGoal g).data = lineChain (sigLines g) (sigTail g) := by
  simp only [normalizeGoal, sigLines, sigTail, lineChain, String.data_append,
    data_nl, List.cons_append, List.nil_append, List.singleton_append,
    List.append_assoc]

lemma normalizeGoal_recover (g1 g2 : SdmGoalEvent)
    (h1u : noNewline g1.uniqueName) (h2u : noNewline g2.uniqueName)
    (h1e : noNewline g1.environment) (h2e : noNewline g2.environment)
    (h1g : noNewline g1.goalSetId) (h2g : noNewline g2.goalSetId)
    (h1o : noNewline g1.repo.owner) (h2o : noNewline g2.repo.owner)
    (h1n : noNewline g1.repo.name) (h2n : noNewline g2.repo.name)
    (h1p : noNewline g1.repo.providerId) (h2p : noNewline g2.repo.providerId)
    (h1s : noNewline g1.sha) (h2s : noNewline g2.sha)
    (h : normalizeGoal g1 = normalizeGoal g2) :
    g1.uniqueName = g2.uniqueName ∧ g1.goalSetId = g2.goalSetId ∧
      g1.state = g2.state ∧ g1.ts = g2.ts ∧ g1.sha = g2.sha := by
  have hd := congrArg String.data h
  rw [normalizeGoal_lineChain g1, normalizeGoal_lineChain g2] at hd
  have hlines1 : ∀ i ∈ sigLines g1, '\n' ∉ i := by
    unfold sigLines
    intro i hi
    simp only [List.mem_cons, List.not_mem_nil, or_false] at hi
    rcases hi with rfl | rfl | rfl | rfl | rfl | rfl | rfl | rfl
    · exact noNL_append (by decide) h1u
    · exact noNL_append (by decide) h1e
    · exact noNL_append (by decide) h1g
    · exact noNL_append (by decide) (stateStr_ne_nl g1.state)
    · exact noNL_append (by decide) (nl_not_mem_repr g1.ts)
    · exact noNL_append (by decide) (optNatStr_ne_nl g1.version)
    · exact noNL_append (noNL_append (noNL_append (noNL_append
        (noNL_append (by decide) h1o) (by decide)) h1n) (by decide)) h1p
    · exact noNL_append (by decide) h1s
  have hlines2 : ∀ i ∈ sigLines g2, '\n' ∉ i := by
    unfold sigLines
    intro i hi
    simp only [List.mem_cons, List.not_mem_nil, or_false] at hi
    rcases hi with rfl | rfl | rfl | rfl | rfl | rfl | rfl | rfl
    · exact noNL_append (by decide) h2u
    · exact noNL_append (by decide) h2e
    · exact noNL_append (by decide) h2g
    · exact noNL_append (by decide) (stateStr_ne_nl g2.state)
    · exact noNL_append (by decide) (nl_not_mem_repr g2.ts)
    · exact noNL_append (by decide) (optNatStr_ne_nl g2.version)
    · exact noNL_append (noNL_append (noNL_append (noNL_append
        (noNL_append (by decide) h2o) (by decide)) h2n) (by decide)) h2p
    · exact noNL_append (by decide) h2s
  obtain ⟨hitems, _⟩ := lineChain_inj (sigLines g1) (sigLines g2)
    (sigTail g1) (sigTail g2) rfl hlines1 hlines2 hd
  simp only [sigLines, List.cons.injEq, and_true] at hitems
  obtain ⟨e1, _, e3, e4, e5, _, _, e8⟩ := hitems
  refine ⟨?_, ?_, ?_, ?_, ?_⟩
  · rw [String.data_append, String.data_append] at e1
    exact String.ext (List.append_cancel_left e1)
  · rw [String.data_append, String.data_append] at e3
    exact String.ext (List.append_cancel_left e3)
  · rw [String.data_append, String.data_append] at e4
    exact stateStr_inj (String.ext (List.append_cancel_left e4))
  · rw [String.data_append, String.data_append] at e5
    have hts : toString g1.ts = toString g2.ts :=
      String.ext (List.append_cancel_left e5)
    have hts2 : Nat.repr g1.ts = Nat.repr g2.ts := hts
    exact reprNat_inj hts2
  · rw [String.data_append, String.data_append] at e8
    exact String.ext (List.append_cancel_left e8)

/-- C5 (amended): the canonical serialization is injective on the minimal
signed field set provided the serialized string fields of the first eight
lines (uniqueName, environment, goalSetId, repo coordinates, sha) contain no
newline character: two such goal events that differ in at least one of
uniqueName, goalSetId, state, sha, or ts produce different strings. -/
theorem serialization_injective_on_signed_fields_amended (g1 g2 : SdmGoalEvent)
    (h1u : noNewline g1.uniqueName) (h2u : noNewline g2.uniqueName)
    (h1e : noNewline g1.environment) (h2e : noNewline g2.environment)
    (h1g : noNewline g1.goalSetId) (h2g : noNewline g2.goalSetId)
    (h1o : noNewline g1.repo.owner) (h2o : noNewline g2.repo.owner)
    (h1n : noNewline g1.repo.name) (h2n : noNewline g2.repo.name)
    (h1p : noNewline g1.repo.providerId) (h2p : noNewline g2.repo.providerId)
    (h1s : noNewline g1.sha) (h2s : noNewline g2.sha)
    (hdiff : g1.uniqueName ≠ g2.uniqueName ∨ g1.goalSetId ≠ g2.goalSetId ∨
      g1.state ≠ g2.state ∨ g1.sha ≠ g2.sha ∨ g1.ts ≠ g2.ts) :
    normalizeGoal g1 ≠ normalizeGoal g2 := by
  intro heq
  obtain ⟨e1, e2, e3, e4, e5⟩ := normalizeGoal_recover g1 g2 h1u h2u h1e h2e
    h1g h2g h1o h2o h1n h2n h1p h2p h1s h2s heq
  rcases hdiff with hh | hh | hh | hh | hh
  · exact hh e1
  · exact hh e2
  · exact hh e3
  · exact hh e5
  · exact hh e4

/-- C5 (witness): two concrete newline-free goals differing only in sha have
different canonical serializations. -/
theorem serialization_injective_amended_witness :
    normalizeGoal baseGoal ≠ normalizeGoal { baseGoal with sha := "sha2" } :=
  serialization_injective_on_signed_fields_amended baseGoal
    { baseGoal with sha := "sha2" }
    (by decide) (by decide) (by decide) (by decide) (by decide) (by decide)
    (by decide) (by decide) (by decide) (by decide) (by decide) (by decide)
    (by decide) (by decide)
    (Or.inr (Or.inr (Or.inr (Or.inl (by decide)))))

/-- C4 (witness): concrete missing and invalid signatures both produce the
failure update with the name-carrying description. -/
theorem verifyGoal_rejection_amended_witness :
    verifyGoal baseGoal gscEnabled = VerifyOutcome.reject
      { state := SdmGoalState.failure,
        description := "Rejected " ++ baseGoal.name ++
          " because signature was missing" } ∧
    verifyGoal badSigGoal gscEnabled = VerifyOutcome.reject
      { state := SdmGoalState.failure,
        description := "Rejected " ++ badSigGoal.name ++
          " because signature was invalid" } :=
  ⟨(verifyGoal_rejection_amended baseGoal gscEnabled rfl rfl).1 rfl,
   (verifyGoal_rejection_amended badSigGoal gscEnabled rfl rfl).2
     { message := "m", keyId := 99 } rfl (by decide)⟩

end SdmCore
